import Mathlib

/-!
# poptorch: the node-construction helpers of `OpBuilder.hpp`

A shallow embedding of the inline code of
`poptorch/include/poptorch/OpBuilder.hpp` (`wrapInConstant1D`,
`createWithSameTypedOutput`, `CreateConstant`, `CreateCast`, `castToType`)
over a small model of the `torch::jit` graph they act on.

Conventions of the embedding.

* A `torch::jit::Node *` and a `torch::jit::Value *` are handles (`NodeId`,
  `ValueId`) into a `Graph`, whose node table and value-type table are total
  maps: every pointer the C++ code holds refers to something.
* A C++ function that runs returns `Except Signal _`: an exception, a failed
  `AT_ASSERT` or a fault ends the call with a `Signal`.
* A function template that has no definition for some template arguments
  returns an `Outcome`: either the call expression is ill-formed (no overload
  or no call operator fits, and there is nothing to run), or it runs.
* Where C++ leaves the behaviour undefined, what happens is read from a
  parameter `Undefined`; the theorems hold for every value of it.
* The functions that `OpBuilder.hpp` only declares (`createConstantInt`,
  `createConstantFloat`, `createConstantFloat16`, `createCast`) are fields
  of `OpBuilderDecls`; every theorem about the inline code holds for all
  implementations of them.
-/

namespace poptorch

/-! ## C++ types and values -/

/-- The integral types of C++ that the embedding distinguishes (LP64:
`int` is `std::int32_t`, `long` is `std::int64_t`). `std::is_integral` holds
for exactly these. -/
inductive IntegralType where
  | bool | int8 | uint8 | int16 | uint16 | int32 | uint32 | int64 | uint64
  deriving DecidableEq, Repr

/-- The floating-point types of C++; `std::is_floating_point` holds for exactly
these. -/
inductive FloatingType where
  | float | double | longDouble
  deriving DecidableEq, Repr

/-- The types a template parameter `T` ranges over here: the arithmetic types
and `c10::Half`, the 16-bit float, which is a class type (neither
`std::is_integral` nor `std::is_floating_point`). -/
inductive CType where
  | integral (t : IntegralType)
  | floating (t : FloatingType)
  | half
  deriving DecidableEq, Repr

/-- The trait `std::is_integral<T>::value`. -/
def CType.is_integral : CType → Bool
  | .integral _ => true
  | _ => false

/-- The trait `std::is_floating_point<T>::value`. -/
def CType.is_floating_point : CType → Bool
  | .floating _ => true
  | _ => false

/-- A binary floating-point datum: `(-1)^neg * mant * 2^exp`, an infinity or a
NaN. No arithmetic is done on these; the code only stores and forwards
them. -/
inductive FP where
  | finite (neg : Bool) (mant : Nat) (exp : Int)
  | inf (neg : Bool)
  | nan
  deriving DecidableEq, Repr

/-- One argument of a variadic call: a value of an arithmetic type together
with that (static) type. -/
inductive CArg where
  | int (t : IntegralType) (v : Int)
  | flt (t : FloatingType) (v : FP)
  deriving DecidableEq, Repr

/-- The static type of an argument. -/
def CArg.type : CArg → CType
  | .int t _ => .integral t
  | .flt t _ => .floating t

/-- Integral conversion to `std::int64_t`: the value congruent to `v` modulo
`2^64` that `std::int64_t` represents. -/
def toInt64 (v : Int) : Int :=
  (v + 2 ^ 63) % 2 ^ 64 - 2 ^ 63

/-- What happens where C++ leaves the behaviour undefined.

* `floatToInt64 v`: the result of converting to `std::int64_t` a floating-point
  value `v` whose truncation `std::int64_t` cannot represent.
* `readPastEnd`: what reading element `0` of an empty `std::vector` of
  pointers gives, `some p` when the read completes with the stale pointer `p`,
  `none` when it faults. -/
structure Undefined where
  floatToInt64 : FP → Int
  readPastEnd : Option Nat

/-- The number of binary digits of `n`, by halving at most `fuel` times. -/
def bitLengthAux : Nat → Nat → Nat
  | 0, _ => 0
  | fuel + 1, n => if n = 0 then 0 else bitLengthAux fuel (n / 2) + 1

/-- The number of binary digits of `n`. -/
def bitLength (n : Nat) : Nat :=
  bitLengthAux n n

/-- Truncation toward zero of a floating-point value; `none` for an infinity or
a NaN. -/
def truncate : FP → Option Int
  | .finite neg mant exp =>
    let mag : Nat := if 0 ≤ exp then mant * 2 ^ exp.toNat else mant / 2 ^ (-exp).toNat
    some (if neg then -(mag : Int) else (mag : Int))
  | _ => none

/-- Floating-integral conversion to `std::int64_t`: the fractional part is
discarded; the behaviour is undefined when the truncated value is not one of
`std::int64_t`. -/
def floatToInt64 (U : Undefined) (v : FP) : Int :=
  match truncate v with
  | some r => if -2 ^ 63 ≤ r ∧ r ≤ 2 ^ 63 - 1 then r else toInt64 (U.floatToInt64 v)
  | none => toInt64 (U.floatToInt64 v)

/-- Conversion of a value to `double` (IEEE binary64: 53 binary digits, least
exponent `-1074`, values below `2^1024`): a value that `double` represents is
kept as it is; any other is rounded to the nearest one, to the even one of two
equally near, and to an infinity beyond the range. -/
def roundToDouble : FP → FP
  | .finite neg mant exp =>
    if mant = 0 then .finite neg mant exp
    else
      let e : Int := exp + bitLength mant - 1
      if 1023 < e then .inf neg
      else
        let q : Int := max (e - 52) (-1074)
        if q ≤ exp then .finite neg mant exp
        else
          let shift : Nat := (q - exp).toNat
          let m0 := mant / 2 ^ shift
          let rem := mant % 2 ^ shift
          let half := 2 ^ (shift - 1)
          let m1 := if half < rem ∨ (rem = half ∧ m0 % 2 = 1) then m0 + 1 else m0
          if m1 = 2 ^ 53 ∧ q = 971 then .inf neg else .finite neg m1 q
  | v => v

/-- The `std::int64_t` that an argument initialises in
`std::vector<int64_t>{values...}`: an integral conversion of an integral
argument, a floating-integral conversion (truncation) of a floating-point
one. Where the conversion narrows the compiler gives a diagnostic (a warning)
and converts. -/
def CArg.asInt64 (U : Undefined) : CArg → Int
  | .int _ v => toInt64 v
  | .flt _ v => floatToInt64 U v

/-- The `double` that an argument initialises in
`std::vector<double>{values...}`: a `float` or a `double` keeps its value, a
`long double` is rounded, an integral argument is converted to the nearest
`double`. Where the conversion narrows the compiler gives a diagnostic (a
warning) and converts. -/
def CArg.asDouble : CArg → FP
  | .flt .float v => v
  | .flt .double v => v
  | .flt .longDouble v => roundToDouble v
  | .int _ v => roundToDouble (.finite (decide (v < 0)) v.natAbs 0)

/-! ## The `torch::jit` graph -/

/-- The values of `c10::ScalarType` used here (`c10::kFloat` is `Float`,
`c10::kInt` is `Int`, `c10::kLong` is `Long`). -/
inductive ScalarType where
  | Byte | Char | Short | Int | Long | Half | Float | Double | Bool
  deriving DecidableEq, Repr

/-- The type of a `Value`: element type and shape (`none`: unknown rank). -/
structure Ty where
  scalar : ScalarType
  sizes : Option (List Int)
  deriving DecidableEq, Repr

abbrev NodeId := Nat
abbrev ValueId := Nat

/-- A static attribute value of a node. -/
inductive Attr where
  | ints (xs : List Int)
  | floats (xs : List FP)
  | scalarType (s : ScalarType)
  deriving DecidableEq, Repr

/-- A `torch::jit::Node`: kind, ordered inputs, ordered outputs, attributes. -/
structure Node where
  kind : String
  inputs : List ValueId
  outputs : List ValueId
  attrs : List (String × Attr)
  deriving DecidableEq, Repr

/-- A `torch::jit::Graph`: the nodes in program order, the node each handle
refers to, the type of each value, and the next unused handles. -/
structure Graph where
  order : List NodeId
  node : NodeId → Node
  type : ValueId → Ty
  nextNode : Nat
  nextValue : Nat

/-- What ends a running call. -/
inductive Signal where
  | assertion
  | fault
  | invalidArgument
  | other (msg : String)
  deriving DecidableEq, Repr

/-- Why a call expression is ill-formed. -/
inductive Diagnostic where
  | noMatchingFunction
  | noCallOperator
  deriving DecidableEq, Repr

/-- The outcome of a call of a function template. -/
inductive Outcome (α : Type) where
  | illFormed (d : Diagnostic)
  | ran (r : Except Signal α)

/-- The member `Node::output()`: `AT_ASSERT(outputs_.size() == 1)`, then the
only output. -/
def Node.output (g : Graph) (n : NodeId) : Except Signal ValueId :=
  match (g.node n).outputs with
  | [v] => .ok v
  | _ => .error .assertion

/-- The member `Value::type()`. -/
def Value.type (g : Graph) (v : ValueId) : Ty :=
  g.type v

/-- The member `Value::setType(t)`. -/
def Value.setType (g : Graph) (v : ValueId) (t : Ty) : Graph :=
  { g with type := Function.update g.type v t }

/-- The result of a function that builds a node. -/
abbrev Built := Except Signal (Graph × NodeId)

/-- The expression `b->output()` on the node a builder returned: the graph as
the builder left it and the only output of the node. -/
def Built.output (b : Built) : Except Signal (Graph × ValueId) := do
  let (g, n) ← b
  let v ← Node.output g n
  pure (g, v)

/-- The builder functions that `OpBuilder.hpp` declares and that its inline
code calls; their definitions are in another translation unit. -/
structure OpBuilderDecls where
  createConstantInt : Graph → List Int → List Int → Built
  createConstantFloat : Graph → List FP → List Int → Built
  createConstantFloat16 : Graph → List FP → List Int → Built
  createCast : Graph → ValueId → ScalarType → Built

/-! ## `wrapInConstant1D` -/

/-- The two overloads of `wrapInConstant1D(graph, values...)`.

Overload resolution: the first overload takes part when
`std::is_integral` holds of the first element type, the second when
`std::is_floating_point` does; with no element there is no first type and
neither takes part. Nothing else is checked: the body of the selected
overload brace-initialises its vector (`std::vector<int64_t>` resp.
`std::vector<double>`) from all the values, converting each, builds the
constant with shape `{data.size()}` (a vector holds fewer than `2^63`
elements, so the cast of the size to `std::int64_t` keeps it) and returns
`->output()`. -/
def wrapInConstant1D (U : Undefined) (D : OpBuilderDecls) (graph : Graph)
    (values : List CArg) : Outcome (Graph × ValueId) :=
  match values with
  | [] => .illFormed .noMatchingFunction
  | first :: _ =>
    if first.type.is_integral then
      let data : List Int := values.map (CArg.asInt64 U)
      .ran (Built.output (D.createConstantInt graph data [(data.length : Int)]))
    else if first.type.is_floating_point then
      let data : List FP := values.map CArg.asDouble
      .ran (Built.output (D.createConstantFloat graph data [(data.length : Int)]))
    else .illFormed .noMatchingFunction

/-! ## `createWithSameTypedOutput` -/

/-- The template `createWithSameTypedOutput(create_fn, graph, args, op_args...)`;
the pack `op_args` is one value of a type `A`.

    torch::jit::Node *new_node = create_fn(graph, args, op_args...);
    new_node->output()->setType(args[0]->type());
    return new_node;

`Node::output()` asserts that the node has exactly one output. `args[0]` is the
unchecked `std::vector::operator[]`: on an empty vector the behaviour is
undefined, and the read either completes with a stale pointer or faults, as
`U.readPastEnd` says. The object expression `new_node->output()` is evaluated
before the argument `args[0]->type()`. -/
def createWithSameTypedOutput {A : Type} (U : Undefined)
    (create_fn : Graph → List ValueId → A → Built)
    (graph : Graph) (args : List ValueId) (op_args : A) : Built := do
  let (g, new_node) ← create_fn graph args op_args
  let out ← Node.output g new_node
  match args with
  | a0 :: _ => pure (Value.setType g out (Value.type g a0), new_node)
  | [] =>
    match U.readPastEnd with
    | some stale => pure (Value.setType g out (Value.type g stale), new_node)
    | none => .error .fault

/-! ## `CreateConstant` and `CreateCast` -/

/-- The type of the `data` parameter of `CreateConstant<T>::operator()`:
`std::vector<double>` in the specialisation for `float`,
`std::vector<int64_t>` in the primary template. -/
abbrev CreateConstant.Data : CType → Type
  | .floating .float => List FP
  | _ => List Int

/-- The functor `CreateConstant<T>{}(graph, data, new_shape)`: the specialisation
`CreateConstant<float>` calls `createConstantFloat`, the primary template
(comment in the source: default to int in the helper) calls
`createConstantInt`. -/
def CreateConstant (T : CType) (D : OpBuilderDecls) (graph : Graph)
    (data : CreateConstant.Data T) (new_shape : List Int) : Built :=
  match T, data with
  | .floating .float, data => D.createConstantFloat graph data new_shape
  | .floating .double, data => D.createConstantInt graph data new_shape
  | .floating .longDouble, data => D.createConstantInt graph data new_shape
  | .integral _, data => D.createConstantInt graph data new_shape
  | .half, data => D.createConstantInt graph data new_shape

/-- The functor `CreateCast<T>{}(graph, value)`: the primary template is an empty
struct, without a call operator; the specialisations for `float`,
`std::int32_t` and `std::int64_t` call `createCast` with `c10::kFloat`,
`c10::kInt` and `c10::kLong`. -/
def CreateCast (T : CType) (D : OpBuilderDecls) (graph : Graph) (value : ValueId) :
    Outcome (Graph × NodeId) :=
  match T with
  | .floating .float => .ran (D.createCast graph value .Float)
  | .integral .int32 => .ran (D.createCast graph value .Int)
  | .integral .int64 => .ran (D.createCast graph value .Long)
  | _ => .illFormed .noCallOperator

/-- The template `castToType<T>(graph, value)`: `return CreateCast<T>{}(graph, value);`. -/
def castToType (T : CType) (D : OpBuilderDecls) (graph : Graph) (value : ValueId) :
    Outcome (Graph × NodeId) :=
  CreateCast T D graph value

/-! ## The node builder behind the declarations

`OpBuilder.hpp` declares `createAndInsertNode`, `createConstantInt`,
`createConstantFloat`, `createConstantFloat16` and `createCast`; their bodies
and `ImplicitCasting.hpp` are in other files. The definitions of this section
follow the specification of the node builder. -/

/-- The graph with no node and no value. -/
def Graph.empty : Graph :=
  { order := [], node := fun _ => ⟨"", [], [], []⟩, type := fun _ => ⟨.Float, none⟩,
    nextNode := 0, nextValue := 0 }

/-- A graph input: a fresh value of the given type, produced by no node. -/
def Graph.addInput (g : Graph) (t : Ty) : Graph :=
  { g with type := Function.update g.type g.nextValue t, nextValue := g.nextValue + 1 }

/-- Modelled from the spec: constructing a node and inserting it into the graph
(the body of the node builder is not among the sources). The graph owns an
ordered sequence of nodes and the new node comes last; a node owns its output
values, which are fresh, one per entry of `outTypes`. -/
def Graph.insertNode (g : Graph) (kind : String) (inputs : List ValueId)
    (attrs : List (String × Attr)) (outTypes : List Ty) : Graph × NodeId :=
  ({ order := g.order ++ [g.nextNode],
     node := Function.update g.node g.nextNode
       ⟨kind, inputs, (List.range outTypes.length).map (g.nextValue + ·), attrs⟩,
     type := fun v =>
       if g.nextValue ≤ v ∧ v < g.nextValue + outTypes.length
       then outTypes.getD (v - g.nextValue) (g.type v) else g.type v,
     nextNode := g.nextNode + 1,
     nextValue := g.nextValue + outTypes.length }, g.nextNode)

/-- Modelled from the spec: `createConstantInt` (declared in `OpBuilder.hpp`,
defined elsewhere). A tensor constant is materialised as a zero-input node
producing one value, typed and shaped accordingly; the integer
representation gives an output of integer type. -/
def createConstantInt (graph : Graph) (data : List Int) (new_shape : List Int) : Built :=
  .ok (graph.insertNode "constant" [] [("data", .ints data), ("shape", .ints new_shape)]
    [⟨.Int, some new_shape⟩])

/-- Modelled from the spec: `createConstantFloat` (declared in `OpBuilder.hpp`,
defined elsewhere): the zero-input, one-output constant node in the 32-bit
float representation. -/
def createConstantFloat (graph : Graph) (data : List FP) (new_shape : List Int) : Built :=
  .ok (graph.insertNode "constant" [] [("data", .floats data), ("shape", .ints new_shape)]
    [⟨.Float, some new_shape⟩])

/-- Modelled from the spec: `createConstantFloat16` (declared in `OpBuilder.hpp`,
defined elsewhere): the zero-input, one-output constant node in the 16-bit
float representation. -/
def createConstantFloat16 (graph : Graph) (data : List FP) (new_shape : List Int) : Built :=
  .ok (graph.insertNode "constant" [] [("data", .floats data), ("shape", .ints new_shape)]
    [⟨.Half, some new_shape⟩])

/-- Modelled from the spec: the explicit cast node of value `A` to element type
`scalar` (the body of `createCast` is not among the sources): one input, one
output of the requested element type and the shape of the input. -/
def castNode (graph : Graph) (A : ValueId) (scalar : ScalarType) : Graph × NodeId :=
  graph.insertNode "cast" [A] [("to", .scalarType scalar)] [⟨scalar, (graph.type A).sizes⟩]

/-- Modelled from the spec: `createCast` (declared in `OpBuilder.hpp`, defined
elsewhere), the builder of an operator whose output type the caller
supplies. -/
def createCast (graph : Graph) (A : ValueId) (scalar : ScalarType) : Built :=
  .ok (castNode graph A scalar)

/-- The declared builders, as the specification describes them. -/
def specDecls : OpBuilderDecls :=
  { createConstantInt := createConstantInt,
    createConstantFloat := createConstantFloat,
    createConstantFloat16 := createConstantFloat16,
    createCast := createCast }

/-- Modelled from the spec: the implicit-cast policy selector `ImplicitCast`
(`ImplicitCasting.hpp` is not among the sources): which input positions take
part in type promotion. -/
structure ImplicitCast where
  participates : Nat → Bool

/-- The selector `ImplicitCast::None`, the default argument of
`createAndInsertNode`: no input takes part. -/
def ImplicitCast.None : ImplicitCast :=
  ⟨fun _ => false⟩

/-- Modelled from the spec: the output policy `ImplicitCastOutput`
(`ImplicitCasting.hpp` is not among the sources), independent of the
promotion of the inputs: either none, or a forced output element type. -/
inductive ImplicitCastOutput where
  | None
  | Always (s : ScalarType)

/-- Modelled from the spec: the promotion order of the implicit cast resolver
(not among the sources): greater numeric range or precision wins, an integer
promotes to a float, a 16-bit float to a 32-bit one. Types of equal rank are
incomparable. -/
def precision : ScalarType → Nat
  | .Bool => 0
  | .Byte => 1
  | .Char => 1
  | .Short => 2
  | .Int => 3
  | .Long => 4
  | .Half => 5
  | .Float => 6
  | .Double => 7

/-- Modelled from the spec: the promotion rule of the implicit cast resolver
(not among the sources) for two types: the type with strictly greater
precision wins; incomparable types are a configuration error. -/
def higherPrecision (a b : ScalarType) : Except Signal ScalarType :=
  if a = b then .ok a
  else if precision a < precision b then .ok b
  else if precision b < precision a then .ok a
  else .error .invalidArgument

/-- Modelled from the spec: the promotion target of the implicit cast resolver
(not among the sources) among the types of the participating inputs; `none`
when no input takes part. -/
def promotionTarget : List ScalarType → Except Signal (Option ScalarType)
  | [] => .ok none
  | t :: ts => (ts.foldlM higherPrecision t).map some

/-- Modelled from the spec: the element types of the inputs that take part in
promotion, `i` being the position of the first listed input. -/
def participating (policy : ImplicitCast) (g : Graph) : Nat → List ValueId → List ScalarType
  | _, [] => []
  | i, v :: vs =>
    if policy.participates i then (g.type v).scalar :: participating policy g (i + 1) vs
    else participating policy g (i + 1) vs

/-- Modelled from the spec: the cast insertion of the node builder (not among
the sources): an explicit cast node is inserted wherever a participating
input has a type that disagrees with the promotion target, and the cast
output takes the place of the input. -/
def insertCasts (target : ScalarType) (policy : ImplicitCast) :
    Graph → Nat → List ValueId → Graph × List ValueId
  | g, _, [] => (g, [])
  | g, i, v :: vs =>
    if policy.participates i ∧ (g.type v).scalar ≠ target then
      let c := castNode g v target
      let r := insertCasts target policy c.1 (i + 1) vs
      (r.1, (c.1.node c.2).outputs.headD v :: r.2)
    else
      let r := insertCasts target policy g (i + 1) vs
      (r.1, v :: r.2)

/-- The kind-specific typing rules of the target dialect: the type of output
`k` of a node of the given kind with the given input types. -/
abbrev TypingRules := String → List Ty → Nat → Ty

/-- Modelled from the spec: the output types of a new node (the body of the node
builder is not among the sources), computed from the types of its inputs and
the typing rules of its kind; an output policy that forces an element type
overrides the element type, independently of the promotion of the inputs. -/
def outputTypes (rules : TypingRules) (kind : String) (inTypes : List Ty)
    (implicit_cast_output : ImplicitCastOutput) (num_outputs : Nat) : List Ty :=
  (List.range num_outputs).map fun k =>
    match implicit_cast_output with
    | .None => rules kind inTypes k
    | .Always s => { rules kind inTypes k with scalar := s }

/-- Modelled from the spec: `createAndInsertNode` (declared in `OpBuilder.hpp`,
defined elsewhere). Given a graph, an operator kind, the ordered inputs, an
implicit-cast policy and an output arity, it applies the implicit-cast
policy, inserting the cast nodes ahead of the new node, constructs the node
on the inputs that result, inserts it, computes its output types from the
inputs and the typing rules of the kind (and the output policy), and returns
it. -/
def createAndInsertNode (rules : TypingRules) (graph : Graph) (kind : String)
    (inputs : List ValueId) (implicit_cast : ImplicitCast)
    (implicit_cast_output : ImplicitCastOutput) (num_outputs : Nat) : Built := do
  let target ← promotionTarget (participating implicit_cast graph 0 inputs)
  let r : Graph × List ValueId :=
    match target with
    | none => (graph, inputs)
    | some t => insertCasts t implicit_cast graph 0 inputs
  pure (r.1.insertNode kind r.2 []
    (outputTypes rules kind (r.2.map r.1.type) implicit_cast_output num_outputs))

/-- The higher-precision of two element types of different precision. -/
def higherOf (a b : ScalarType) : ScalarType :=
  if precision a < precision b then b else a

/-! ## Sample inputs -/

/-- A graph with two inputs: value `0`, a 32-bit float tensor of shape `[2]`,
and value `1`, a 16-bit float tensor of shape `[2]`. -/
def sampleGraph : Graph :=
  (Graph.empty.addInput ⟨.Float, some [2]⟩).addInput ⟨.Half, some [2]⟩

/-- Typing rules that give every output the type of a boolean tensor of unknown
rank. -/
def sampleRules : TypingRules :=
  fun _ _ _ => ⟨.Bool, none⟩

/-- A create function in the style of `createConcat`: one node, one output,
an axis as operator argument. -/
def sampleConcat (g : Graph) (args : List ValueId) (_axis : Int) : Built :=
  createAndInsertNode sampleRules g "concat" args ImplicitCast.None .None 1

/-- A create function in the style of `createSplit`: one node with
`num_outputs` outputs. -/
def sampleSplit (g : Graph) (args : List ValueId) (num_outputs : Nat) : Built :=
  createAndInsertNode sampleRules g "split" args ImplicitCast.None .None num_outputs

/-- A platform on which an out-of-range conversion to `std::int64_t` gives
`-2^63` and the read of element `0` of an empty vector completes with the
stale pointer `0`. -/
def sampleUndefined : Undefined :=
  { floatToInt64 := fun _ => -2 ^ 63, readPastEnd := some 0 }

/-- A graph with seven inputs; value `1` is a boolean scalar, value `5` a 32-bit
float tensor and value `6` a 16-bit float tensor, both of shape `[2]`. -/
def sampleGraph7 : Graph :=
  ((((((Graph.empty.addInput ⟨.Int, some []⟩).addInput ⟨.Bool, some []⟩).addInput
    ⟨.Long, some []⟩).addInput ⟨.Byte, none⟩).addInput ⟨.Double, none⟩).addInput
    ⟨.Float, some [2]⟩).addInput ⟨.Half, some [2]⟩

/-- The policy under which every input takes part in promotion. -/
def sampleAll : ImplicitCast :=
  ⟨fun _ => true⟩

/-! ## Theorems: `wrapInConstant1D` -/

theorem toInt64_of_int64 (v : Int) (hlo : -2 ^ 63 ≤ v) (hhi : v ≤ 2 ^ 63 - 1) :
    toInt64 v = v := by
  unfold toInt64
  rw [Int.emod_eq_of_lt (by omega) (by omega)]
  omega

theorem Built.output_of_ok (b : Built) (g : Graph) (n : NodeId) (v : ValueId)
    (hb : b = .ok (g, n)) (hv : (g.node n).outputs = [v]) :
    Built.output b = .ok (g, v) := by
  subst hb
  simp [Built.output, Node.output, hv, bind, Except.bind, pure, Except.pure]

theorem wrapInConstant1D_of_integral (U : Undefined) (D : OpBuilderDecls) (graph : Graph)
    (first : CArg) (rest : List CArg) (hfirst : first.type.is_integral = true) :
    wrapInConstant1D U D graph (first :: rest)
      = .ran (Built.output (D.createConstantInt graph ((first :: rest).map (CArg.asInt64 U))
          [((first :: rest).length : Int)])) := by
  simp only [wrapInConstant1D, hfirst, if_true, List.length_map]

theorem wrapInConstant1D_of_floating (U : Undefined) (D : OpBuilderDecls) (graph : Graph)
    (first : CArg) (rest : List CArg) (hfirst : first.type.is_floating_point = true) :
    wrapInConstant1D U D graph (first :: rest)
      = .ran (Built.output (D.createConstantFloat graph ((first :: rest).map CArg.asDouble)
          [((first :: rest).length : Int)])) := by
  have hnot : first.type.is_integral = false := by
    cases first <;> simp [CArg.type, CType.is_integral, CType.is_floating_point] at hfirst ⊢
  simp only [wrapInConstant1D, hfirst, hnot, if_true, List.length_map]
  simp

/-- C1: for every argument sequence `first :: rest` whose first element has an
integral type, `wrapInConstant1D(graph, first, rest...)` returns
`createConstantInt(graph, data, {n})->output()`, the single output of the
node that call builds, where `data` holds the arguments converted to
`std::int64_t` in argument order (an integral argument that
`std::int64_t` represents: the argument itself) and the shape is the
one-element list `[n]`; the arguments `1, 2, 3` give the data `[1, 2, 3]` and
the shape `[3]`; the outcome does not depend on the other declared builders,
so neither float constructor is called. The last conjunct gives the
conversion at sample arguments: an unsigned 64-bit `5` and `2^64 - 1`, a
`bool`, and the floating-point values `2.5`, `-2.5` and `12.0`. -/
theorem wrapInConstant1D_integral (U : Undefined) (D : OpBuilderDecls) (graph : Graph)
    (first : CArg) (rest : List CArg) (hfirst : first.type.is_integral = true) :
    wrapInConstant1D U D graph (first :: rest)
        = .ran (Built.output (D.createConstantInt graph ((first :: rest).map (CArg.asInt64 U))
            [((first :: rest).length : Int)]))
      ∧ (∀ (g : Graph) (n : NodeId) (v : ValueId),
          D.createConstantInt graph ((first :: rest).map (CArg.asInt64 U))
            [((first :: rest).length : Int)] = .ok (g, n) →
          (g.node n).outputs = [v] →
          wrapInConstant1D U D graph (first :: rest) = .ran (.ok (g, v)))
      ∧ (∀ (t : IntegralType) (v : Int), -2 ^ 63 ≤ v → v ≤ 2 ^ 63 - 1 →
          (CArg.int t v).asInt64 U = v)
      ∧ ([CArg.int .int32 1, .int .int32 2, .int .int32 3].map (CArg.asInt64 U) = [1, 2, 3]
          ∧ (([CArg.int .int32 1, .int .int32 2, .int .int32 3].length : Int) = 3))
      ∧ (∀ D2 : OpBuilderDecls, D2.createConstantInt = D.createConstantInt →
          wrapInConstant1D U D2 graph (first :: rest)
            = wrapInConstant1D U D graph (first :: rest))
      ∧ ((CArg.int .uint64 5).asInt64 U = 5
          ∧ (CArg.int .uint64 (2 ^ 64 - 1)).asInt64 U = -1
          ∧ (CArg.int .bool 1).asInt64 U = 1
          ∧ (CArg.flt .double (.finite false 5 (-1))).asInt64 U = 2
          ∧ (CArg.flt .float (.finite true 5 (-1))).asInt64 U = -2
          ∧ (CArg.flt .double (.finite false 3 2)).asInt64 U = 12) := by
  have h := wrapInConstant1D_of_integral U D graph first rest hfirst
  refine ⟨h, ?_, ?_, ⟨?_, rfl⟩, ?_, ?_⟩
  · intro g n v hb hv
    rw [h, Built.output_of_ok _ g n v hb hv]
  · intro t v hlo hhi
    exact toInt64_of_int64 v hlo hhi
  · simp [CArg.asInt64, toInt64]
  · intro D2 h2
    rw [h, wrapInConstant1D_of_integral U D2 graph first rest hfirst, h2]
  · have e1 : toInt64 5 = 5 := by decide
    have e2 : toInt64 (2 ^ 64 - 1) = -1 := by decide
    have e3 : toInt64 1 = 1 := by decide
    refine ⟨e1, e2, e3, ?_, ?_, ?_⟩ <;> simp [CArg.asInt64, floatToInt64, truncate]

/-- C1, at the arguments `1, 2, 3` of type `int`: the call returns the output of
`createConstantInt(graph, [1, 2, 3], [3])`, value `0` of the new graph. -/
theorem wrapInConstant1D_integral_witness :
    (CArg.int .int32 1).type.is_integral = true
      ∧ wrapInConstant1D sampleUndefined specDecls Graph.empty
          [.int .int32 1, .int .int32 2, .int .int32 3]
        = .ran (Built.output (createConstantInt Graph.empty [1, 2, 3] [3]))
      ∧ Built.output (createConstantInt Graph.empty [1, 2, 3] [3])
        = .ok ((Graph.empty.insertNode "constant" []
            [("data", .ints [1, 2, 3]), ("shape", .ints [3])] [⟨.Int, some [3]⟩]).1, 0) :=
  ⟨rfl, (wrapInConstant1D_integral sampleUndefined specDecls Graph.empty (.int .int32 1)
    [.int .int32 2, .int .int32 3] rfl).1, rfl⟩

/-- C7: for every argument sequence `first :: rest` whose first element has a
floating-point type, `wrapInConstant1D(graph, first, rest...)` returns
`createConstantFloat(graph, data, {n})->output()`, the single output of the
node that call builds, where `data` holds the arguments converted to `double`
in argument order (a `float` or `double` argument: the argument itself) and
the shape is the one-element list `[n]`; the constructor is chosen from the
type of the first argument, whatever the values are: `1.0, 2.0` give the
`double` data `[1.0, 2.0]`; and the outcome does not depend on the other
declared builders, so neither the integer nor the 16-bit float constructor is
called. The last conjunct gives the conversion at sample arguments: the
integers `1`, `-3`, `2^53 + 1` and `2^53 + 3`, the `long double` nearest to
one tenth, and a `long double` beyond the range of `double`. -/
theorem wrapInConstant1D_floating (U : Undefined) (D : OpBuilderDecls) (graph : Graph)
    (first : CArg) (rest : List CArg) (hfirst : first.type.is_floating_point = true) :
    wrapInConstant1D U D graph (first :: rest)
        = .ran (Built.output (D.createConstantFloat graph ((first :: rest).map CArg.asDouble)
            [((first :: rest).length : Int)]))
      ∧ (∀ (g : Graph) (n : NodeId) (v : ValueId),
          D.createConstantFloat graph ((first :: rest).map CArg.asDouble)
            [((first :: rest).length : Int)] = .ok (g, n) →
          (g.node n).outputs = [v] →
          wrapInConstant1D U D graph (first :: rest) = .ran (.ok (g, v)))
      ∧ (∀ v : FP, (CArg.flt .float v).asDouble = v ∧ (CArg.flt .double v).asDouble = v)
      ∧ ([CArg.flt .double (.finite false 1 0), .flt .double (.finite false 2 0)].map
            CArg.asDouble = [.finite false 1 0, .finite false 2 0])
      ∧ (∀ D2 : OpBuilderDecls, D2.createConstantFloat = D.createConstantFloat →
          wrapInConstant1D U D2 graph (first :: rest)
            = wrapInConstant1D U D graph (first :: rest))
      ∧ ((CArg.int .int32 1).asDouble = .finite false 1 0
          ∧ (CArg.int .int32 (-3)).asDouble = .finite true 3 0
          ∧ (CArg.int .int64 (2 ^ 53 + 1)).asDouble = .finite false (2 ^ 52) 1
          ∧ (CArg.int .int64 (2 ^ 53 + 3)).asDouble = .finite false (2 ^ 52 + 2) 1
          ∧ (CArg.flt .longDouble (.finite false 0xCCCCCCCCCCCCCCCD (-67))).asDouble
            = .finite false 0x1999999999999A (-56)
          ∧ (CArg.flt .longDouble (.finite false (2 ^ 64 - 1) 960)).asDouble = .inf false) := by
  have h := wrapInConstant1D_of_floating U D graph first rest hfirst
  refine ⟨h, ?_, fun v => ⟨rfl, rfl⟩, rfl, ?_, ?_⟩
  · intro g n v hb hv
    rw [h, Built.output_of_ok _ g n v hb hv]
  · intro D2 h2
    rw [h, wrapInConstant1D_of_floating U D2 graph first rest hfirst, h2]
  · refine ⟨?_, ?_, ?_, ?_, ?_, ?_⟩ <;> decide

/-- C7, at the arguments `1.0, 2.0` of type `double`: the call returns the output
of `createConstantFloat(graph, [1.0, 2.0], [2])`, a float constant. -/
theorem wrapInConstant1D_floating_witness :
    (CArg.flt .double (.finite false 1 0)).type.is_floating_point = true
      ∧ wrapInConstant1D sampleUndefined specDecls Graph.empty
          [.flt .double (.finite false 1 0), .flt .double (.finite false 2 0)]
        = .ran (Built.output (createConstantFloat Graph.empty
            [.finite false 1 0, .finite false 2 0] [2]))
      ∧ Built.output (createConstantFloat Graph.empty [.finite false 1 0, .finite false 2 0] [2])
        = .ok ((Graph.empty.insertNode "constant" []
            [("data", .floats [.finite false 1 0, .finite false 2 0]), ("shape", .ints [2])]
            [⟨.Float, some [2]⟩]).1, 0) :=
  ⟨rfl, (wrapInConstant1D_floating sampleUndefined specDecls Graph.empty
    (.flt .double (.finite false 1 0)) [.flt .double (.finite false 2 0)] rfl).1, rfl⟩

theorem Node.output_eq_ok (g : Graph) (n : NodeId) (out : ValueId)
    (h : (g.node n).outputs = [out]) : Node.output g n = .ok out := by
  simp [Node.output, h]

theorem Node.output_eq_error (g : Graph) (n : NodeId)
    (h : (g.node n).outputs.length ≠ 1) : Node.output g n = .error .assertion := by
  unfold Node.output
  split
  · rename_i v hv
    simp [hv] at h
  · rfl

/-- C3: for every create function, graph, input list `a0 :: rest` and operator
arguments, when the one call `create_fn(graph, args, op_args...)` returns a
node `n` (with one output `out`, as `Node::output()` requires),
`createWithSameTypedOutput` returns exactly `n`, in the graph that call left
with one change: the type of `out` is the type of `args[0]`, whatever type
`create_fn` gave it. The result depends on `create_fn` through that one call
only. -/
theorem createWithSameTypedOutput_sameType {A : Type} (U : Undefined)
    (create_fn : Graph → List ValueId → A → Built) (graph : Graph) (a0 : ValueId)
    (rest : List ValueId) (op_args : A) (g : Graph) (n : NodeId) (out : ValueId)
    (hcall : create_fn graph (a0 :: rest) op_args = .ok (g, n))
    (hout : (g.node n).outputs = [out]) :
    ∃ g2 : Graph,
      createWithSameTypedOutput U create_fn graph (a0 :: rest) op_args = .ok (g2, n)
      ∧ g2 = Value.setType g out (Value.type g a0)
      ∧ Node.output g2 n = .ok out
      ∧ Value.type g2 out = Value.type g a0
      ∧ Value.type g2 out = Value.type g2 a0
      ∧ g2.node = g.node ∧ g2.order = g.order
      ∧ (∀ v, v ≠ out → Value.type g2 v = Value.type g v)
      ∧ (∀ f2 : Graph → List ValueId → A → Built,
          f2 graph (a0 :: rest) op_args = create_fn graph (a0 :: rest) op_args →
          createWithSameTypedOutput U f2 graph (a0 :: rest) op_args = .ok (g2, n)) := by
  have hno := Node.output_eq_ok g n out hout
  refine ⟨Value.setType g out (Value.type g a0), ?_, rfl, ?_, ?_, ?_, rfl, rfl, ?_, ?_⟩
  · simp [createWithSameTypedOutput, hcall, hno, bind, Except.bind, pure, Except.pure]
  · exact Node.output_eq_ok _ n out hout
  · simp [Value.setType, Value.type]
  · by_cases h : a0 = out
    · subst h
      simp [Value.setType, Value.type]
    · simp [Value.setType, Value.type, Function.update_noteq h]
  · intro v hv
    simp [Value.setType, Value.type, Function.update_noteq hv]
  · intro f2 h2
    simp [createWithSameTypedOutput, h2, hcall, hno, bind, Except.bind, pure, Except.pure]

/-- C3, at a concat-like create function on the inputs `0` (32-bit float) and `1`:
the returned node is the created node `0`, and its output, value `2`, created
as a boolean tensor, has the type of input `0`. -/
theorem createWithSameTypedOutput_sameType_witness :
    ∃ g2 : Graph,
      createWithSameTypedOutput sampleUndefined sampleConcat sampleGraph [0, 1] 0 = .ok (g2, 0)
      ∧ Node.output g2 0 = .ok 2
      ∧ Value.type g2 2 = ⟨.Float, some [2]⟩
      ∧ Value.type g2 2 = Value.type g2 0 := by
  obtain ⟨g2, h1, _, h3, h4, h5, _⟩ :=
    createWithSameTypedOutput_sameType sampleUndefined sampleConcat sampleGraph 0 [1] 0 _ 0 2
      rfl rfl
  exact ⟨g2, h1, h3, h4, h5⟩

/-- C10, as stated, fails at an empty `args`: with a create function that returns
a one-output node, on a platform where the read of `args[0]` outside the
vector completes, `createWithSameTypedOutput` completes and returns the
node. -/
theorem createWithSameTypedOutput_empty_args_completes :
    ∃ g2 : Graph,
      createWithSameTypedOutput sampleUndefined sampleConcat sampleGraph [] 0 = .ok (g2, 0)
      ∧ Node.output g2 0 = .ok 2 :=
  ⟨_, rfl, rfl⟩

/-- C10, amended: when the call of `create_fn` returns a node,
`createWithSameTypedOutput` reads the single output of that node
unconditionally: with a node of zero or several outputs it fails on the
assertion of `Node::output()`, whatever `args` is; with a non-empty `args` it
completes without failure if and only if the node has exactly one output,
and under these two preconditions it returns the node. With an empty `args`
(and a one-output node) the read of `args[0]` is undefined behaviour: the call
completes when the read does and faults when the read faults. -/
theorem createWithSameTypedOutput_completes_iff {A : Type} (U : Undefined)
    (create_fn : Graph → List ValueId → A → Built) (graph : Graph) (args : List ValueId)
    (op_args : A) (g : Graph) (n : NodeId)
    (hcall : create_fn graph args op_args = .ok (g, n)) :
    ((g.node n).outputs.length ≠ 1 →
        createWithSameTypedOutput U create_fn graph args op_args = .error .assertion)
      ∧ (args ≠ [] →
          ((∃ r, createWithSameTypedOutput U create_fn graph args op_args = .ok r)
            ↔ (g.node n).outputs.length = 1))
      ∧ (args ≠ [] → (g.node n).outputs.length = 1 →
          ∃ g2, createWithSameTypedOutput U create_fn graph args op_args = .ok (g2, n))
      ∧ (args = [] → (g.node n).outputs.length = 1 →
          ((∃ g2, createWithSameTypedOutput U create_fn graph args op_args = .ok (g2, n))
            ↔ U.readPastEnd ≠ none)
          ∧ (U.readPastEnd = none →
            createWithSameTypedOutput U create_fn graph args op_args = .error .fault)) := by
  have hbad : (g.node n).outputs.length ≠ 1 →
      createWithSameTypedOutput U create_fn graph args op_args = .error .assertion := by
    intro h
    simp [createWithSameTypedOutput, hcall, Node.output_eq_error g n h, bind, Except.bind]
  have hgood : args ≠ [] → (g.node n).outputs.length = 1 →
      ∃ g2, createWithSameTypedOutput U create_fn graph args op_args = .ok (g2, n) := by
    intro hne h1
    obtain ⟨out, hout⟩ := List.length_eq_one.mp h1
    cases args with
    | nil => exact absurd rfl hne
    | cons a0 rest =>
      exact ⟨Value.setType g out (Value.type g a0), by
        simp [createWithSameTypedOutput, hcall, Node.output_eq_ok g n out hout, bind,
          Except.bind, pure, Except.pure]⟩
  refine ⟨hbad, ?_, hgood, ?_⟩
  · intro hne
    constructor
    · rintro ⟨r, hr⟩
      by_contra h1
      rw [hbad h1] at hr
      cases hr
    · intro h1
      obtain ⟨g2, h2⟩ := hgood hne h1
      exact ⟨_, h2⟩
  · intro ha h1
    obtain ⟨out, hout⟩ := List.length_eq_one.mp h1
    subst ha
    cases hU : U.readPastEnd with
    | none =>
      have hf : createWithSameTypedOutput U create_fn graph [] op_args = .error .fault := by
        simp [createWithSameTypedOutput, hcall, Node.output_eq_ok g n out hout, hU, bind,
          Except.bind]
      refine ⟨⟨?_, fun h => absurd rfl h⟩, fun _ => hf⟩
      rintro ⟨g2, h2⟩
      rw [hf] at h2
      cases h2
    | some stale =>
      refine ⟨⟨fun _ => by simp, fun _ => ?_⟩, fun h => by cases h⟩
      exact ⟨Value.setType g out (Value.type g stale), by
        simp [createWithSameTypedOutput, hcall, Node.output_eq_ok g n out hout, hU, bind,
          Except.bind, pure, Except.pure]⟩

/-- C10, amended, at a split into two parts: the created node has two outputs and
`createWithSameTypedOutput` fails on the assertion of `Node::output()`. -/
theorem createWithSameTypedOutput_completes_iff_witness :
    createWithSameTypedOutput sampleUndefined sampleSplit sampleGraph [0] 2
      = .error .assertion :=
  (createWithSameTypedOutput_completes_iff sampleUndefined sampleSplit sampleGraph [0] 2 _ 0
    rfl).1 (by decide)

/-! ## Theorems: `CreateConstant` -/

/-- C4, as stated, fails at the 16-bit float type: `CreateConstant<c10::Half>` on
the data `[1, 2, 3]` and shape `[3]` builds what `createConstantInt` builds
there, an integer constant, and not what `createConstantFloat16` builds from
any data. -/
theorem CreateConstant_half_not_float16 :
    CreateConstant .half specDecls Graph.empty ([1, 2, 3] : List Int) [3]
        = createConstantInt Graph.empty [1, 2, 3] [3]
      ∧ ¬ ∃ fdata : List FP,
          CreateConstant .half specDecls Graph.empty ([1, 2, 3] : List Int) [3]
            = createConstantFloat16 Graph.empty fdata [3] := by
  refine ⟨rfl, ?_⟩
  rintro ⟨fdata, h⟩
  have h2 := congrArg
    (fun r : Built => match r with
      | .ok p => (p.1.type 0).scalar
      | .error _ => ScalarType.Bool) h
  simp [CreateConstant, specDecls, createConstantInt, createConstantFloat16,
    Graph.insertNode, Graph.empty] at h2

/-- C4, amended: the constructor that `CreateConstant<T>` calls depends on nothing
but `T`, for every graph, data, shape and implementation of the declared
builders: `createConstantFloat` when `T` is `float`, `createConstantInt` when
`T` is an integer type and also when `T` is the 16-bit float type (the
primary template; `createConstantFloat16` is not the constructor picked for
it); in each case `data` and `new_shape` are passed on unchanged. -/
theorem CreateConstant_dispatch :
    (∀ (D : OpBuilderDecls) (graph : Graph) (data : List FP) (new_shape : List Int),
        CreateConstant (.floating .float) D graph data new_shape
          = D.createConstantFloat graph data new_shape)
      ∧ (∀ (t : IntegralType) (D : OpBuilderDecls) (graph : Graph) (data : List Int)
          (new_shape : List Int),
        CreateConstant (.integral t) D graph data new_shape
          = D.createConstantInt graph data new_shape)
      ∧ (∀ (D : OpBuilderDecls) (graph : Graph) (data : List Int) (new_shape : List Int),
        CreateConstant .half D graph data new_shape
          = D.createConstantInt graph data new_shape) :=
  ⟨fun _ _ _ _ => rfl, fun _ _ _ _ _ => rfl, fun _ _ _ _ => rfl⟩

/-- C9: `CreateConstant` defaults to int. Every `T` is `float` or one of the other
types listed; for each of the others (`double`, `long double`, the 16-bit
float, `bool` and every integer type) `CreateConstant<T>` takes 64-bit
integer data and equals `createConstantInt(graph, data, new_shape)`; for
`float` it takes `double` data and equals
`createConstantFloat(graph, data, new_shape)`; and no instantiation depends on
`createConstantFloat16`: replacing it changes no result. -/
theorem CreateConstant_defaults_to_int :
    (∀ T : CType, T = .floating .float ∨ T = .floating .double ∨ T = .floating .longDouble
        ∨ T = .half ∨ ∃ t, T = .integral t)
      ∧ (∀ T : CType, T ≠ .floating .float → CreateConstant.Data T = List Int)
      ∧ CreateConstant.Data (.floating .float) = List FP
      ∧ (∀ (D : OpBuilderDecls) (graph : Graph) (data : List Int) (new_shape : List Int),
          CreateConstant (.floating .double) D graph data new_shape
            = D.createConstantInt graph data new_shape
          ∧ CreateConstant (.floating .longDouble) D graph data new_shape
            = D.createConstantInt graph data new_shape
          ∧ CreateConstant .half D graph data new_shape
            = D.createConstantInt graph data new_shape
          ∧ CreateConstant (.integral .bool) D graph data new_shape
            = D.createConstantInt graph data new_shape
          ∧ ∀ t : IntegralType, CreateConstant (.integral t) D graph data new_shape
            = D.createConstantInt graph data new_shape)
      ∧ (∀ (D : OpBuilderDecls) (graph : Graph) (data : List FP) (new_shape : List Int),
          CreateConstant (.floating .float) D graph data new_shape
            = D.createConstantFloat graph data new_shape)
      ∧ (∀ (T : CType) (D D2 : OpBuilderDecls) (graph : Graph) (data : CreateConstant.Data T)
          (new_shape : List Int),
          D2.createConstantInt = D.createConstantInt →
          D2.createConstantFloat = D.createConstantFloat →
          CreateConstant T D2 graph data new_shape = CreateConstant T D graph data new_shape) := by
  refine ⟨?_, ?_, rfl, fun _ _ _ _ => ⟨rfl, rfl, rfl, rfl, fun _ => rfl⟩,
    fun _ _ _ _ => rfl, ?_⟩
  · intro T
    cases T with
    | integral t => exact Or.inr (Or.inr (Or.inr (Or.inr ⟨t, rfl⟩)))
    | floating t => cases t <;> simp
    | half => simp
  · intro T hT
    cases T with
    | integral t => rfl
    | floating t =>
      cases t with
      | float => exact absurd rfl hT
      | double => rfl
      | longDouble => rfl
    | half => rfl
  · intro T D D2 graph data new_shape hi hf
    cases T with
    | integral t => simp only [CreateConstant, hi]
    | floating t => cases t <;> simp only [CreateConstant, hi, hf]
    | half => simp only [CreateConstant, hi]

/-! ## Theorems: `castToType` -/

/-- C8: `castToType<T>(graph, value)` is `createCast(graph, value, S)` with
`S = kFloat` for `float`, `kInt` for `std::int32_t` and `kLong` for
`std::int64_t`, on the same graph and value; for every other `T` (`double`
and the 16-bit float among them) the call is ill-formed, there being no call
operator in `CreateCast<T>`; and two types whose casts pass the same `S` are
the same type. -/
theorem castToType_table :
    (∀ (D : OpBuilderDecls) (graph : Graph) (value : ValueId),
        castToType (.floating .float) D graph value = .ran (D.createCast graph value .Float)
        ∧ castToType (.integral .int32) D graph value = .ran (D.createCast graph value .Int)
        ∧ castToType (.integral .int64) D graph value = .ran (D.createCast graph value .Long))
      ∧ (∀ (T : CType) (D : OpBuilderDecls) (graph : Graph) (value : ValueId),
          T ≠ .floating .float → T ≠ .integral .int32 → T ≠ .integral .int64 →
          castToType T D graph value = .illFormed .noCallOperator)
      ∧ castToType (.floating .double) specDecls Graph.empty 0 = .illFormed .noCallOperator
      ∧ castToType .half specDecls Graph.empty 0 = .illFormed .noCallOperator
      ∧ (∀ (T1 T2 : CType) (S : ScalarType),
          (∀ (D : OpBuilderDecls) (graph : Graph) (value : ValueId),
            castToType T1 D graph value = .ran (D.createCast graph value S)) →
          (∀ (D : OpBuilderDecls) (graph : Graph) (value : ValueId),
            castToType T2 D graph value = .ran (D.createCast graph value S)) →
          T1 = T2) := by
  refine ⟨fun _ _ _ => ⟨rfl, rfl, rfl⟩, ?_, rfl, rfl, ?_⟩
  · intro T D graph value h1 h2 h3
    cases T with
    | integral t => cases t <;> simp_all [castToType, CreateCast]
    | floating t => cases t <;> simp_all [castToType, CreateCast]
    | half => rfl
  · intro T1 T2 S h1 h2
    have key : ∀ T : CType,
        (∀ (D : OpBuilderDecls) (graph : Graph) (value : ValueId),
          castToType T D graph value = .ran (D.createCast graph value S)) →
        (T = .floating .float ∧ S = .Float) ∨ (T = .integral .int32 ∧ S = .Int)
          ∨ (T = .integral .int64 ∧ S = .Long) := by
      intro T h
      have h0 := h specDecls Graph.empty 0
      have hs : ∀ S2 : ScalarType,
          (Outcome.ran (specDecls.createCast Graph.empty 0 S2) : Outcome (Graph × NodeId))
            = .ran (specDecls.createCast Graph.empty 0 S) → S2 = S := by
        intro S2 e
        have e2 := congrArg
          (fun o : Outcome (Graph × NodeId) => match o with
            | .ran (.ok p) => (p.1.type 0).scalar
            | _ => ScalarType.Bool) e
        simpa [specDecls, createCast, castNode, Graph.insertNode, Graph.empty] using e2
      cases T with
      | half => cases h0
      | integral t =>
        cases t <;> first
          | cases h0
          | exact Or.inr (Or.inl ⟨rfl, (hs _ h0).symm⟩)
          | exact Or.inr (Or.inr ⟨rfl, (hs _ h0).symm⟩)
      | floating t =>
        cases t <;> first
          | cases h0
          | exact Or.inl ⟨rfl, (hs _ h0).symm⟩
    rcases key T1 h1 with ⟨a, b⟩ | ⟨a, b⟩ | ⟨a, b⟩ <;>
      rcases key T2 h2 with ⟨c, d⟩ | ⟨c, d⟩ | ⟨c, d⟩ <;>
      subst a c <;> first
        | rfl
        | (rw [b] at d; cases d)

/-! ## Theorems: implicit casts in `createAndInsertNode` -/

theorem Graph.insertNode_type_old (g : Graph) (kind : String) (inputs : List ValueId)
    (attrs : List (String × Attr)) (outTypes : List Ty) (u : Nat) (hu : u < g.nextValue) :
    (g.insertNode kind inputs attrs outTypes).1.type u = g.type u := by
  simp only [Graph.insertNode]
  rw [if_neg]
  omega

theorem Graph.insertNode_node (g : Graph) (kind : String) (inputs : List ValueId)
    (attrs : List (String × Attr)) (outTypes : List Ty) :
    ((g.insertNode kind inputs attrs outTypes).1.node
        (g.insertNode kind inputs attrs outTypes).2).inputs = inputs
      ∧ ((g.insertNode kind inputs attrs outTypes).1.node
        (g.insertNode kind inputs attrs outTypes).2).kind = kind := by
  simp [Graph.insertNode]

theorem castNode_nextValue (g : Graph) (v : Nat) (t : ScalarType) :
    (castNode g v t).1.nextValue = g.nextValue + 1 := by
  simp [castNode, Graph.insertNode]

theorem castNode_output (g : Graph) (v : Nat) (t : ScalarType) :
    ((castNode g v t).1.node (castNode g v t).2).outputs = [g.nextValue] := by
  simp [castNode, Graph.insertNode, List.range_succ]

theorem castNode_type_new (g : Graph) (v : Nat) (t : ScalarType) :
    ((castNode g v t).1.type g.nextValue).scalar = t := by
  simp [castNode, Graph.insertNode]

theorem castNode_type_old (g : Graph) (v : Nat) (t : ScalarType) (u : Nat)
    (hu : u < g.nextValue) : (castNode g v t).1.type u = g.type u :=
  Graph.insertNode_type_old g _ _ _ _ u hu

theorem castNode_eq (g : Graph) (v : Nat) (t : ScalarType) :
    (castNode g v t).1.order = g.order ++ [g.nextNode]
      ∧ (castNode g v t).1.nextNode = g.nextNode + 1
      ∧ (castNode g v t).1.node
        = Function.update g.node g.nextNode
            ⟨"cast", [v], [g.nextValue], [("to", .scalarType t)]⟩ := by
  simp [castNode, Graph.insertNode, List.range_succ]

/-- Where no participating input disagrees with the target, the cast insertion
changes nothing. -/
theorem insertCasts_none (t : ScalarType) (policy : ImplicitCast) (vs : List Nat) :
    ∀ (g : Graph) (i0 : Nat),
      (∀ (k v : Nat), vs[k]? = some v →
        ¬ (policy.participates (i0 + k) = true ∧ (g.type v).scalar ≠ t)) →
      insertCasts t policy g i0 vs = (g, vs) := by
  induction vs with
  | nil => intro g i0 _; rfl
  | cons v vs ih =>
    intro g i0 h
    have h0 : ¬ (policy.participates i0 = true ∧ (g.type v).scalar ≠ t) := by
      simpa using h 0 v (by simp)
    have hrest := ih g (i0 + 1) (fun k w hk => by
      have := h (k + 1) w (by simpa using hk)
      have e : i0 + 1 + k = i0 + (k + 1) := by omega
      rw [e]
      exact this)
    simp only [insertCasts, if_neg h0, hrest]

/-- Where exactly one participating input, the one at position `p`, disagrees
with the target, the cast insertion adds one cast node, on that input, and
puts the output of the cast at position `p`. -/
theorem insertCasts_one (t : ScalarType) (policy : ImplicitCast) (vs : List Nat) :
    ∀ (g : Graph) (i0 p lo : Nat), vs[p]? = some lo →
      policy.participates (i0 + p) = true → (g.type lo).scalar ≠ t →
      (∀ (k v : Nat), k ≠ p → vs[k]? = some v →
        ¬ (policy.participates (i0 + k) = true ∧ (g.type v).scalar ≠ t)) →
      (∀ v : Nat, v ∈ vs → v < g.nextValue) →
      insertCasts t policy g i0 vs = ((castNode g lo t).1, vs.set p g.nextValue) := by
  induction vs with
  | nil => intro g i0 p lo hp; simp at hp
  | cons v vs ih =>
    intro g i0 p lo hp hpp hlo hothers halloc
    cases p with
    | zero =>
      simp only [List.getElem?_cons_zero, Option.some.injEq] at hp
      subst hp
      have hc : policy.participates i0 = true ∧ (g.type v).scalar ≠ t :=
        ⟨by simpa using hpp, hlo⟩
      have hrest := insertCasts_none t policy vs (castNode g v t).1 (i0 + 1) (fun k w hk => by
        have hw : w < g.nextValue := halloc w (List.mem_cons_of_mem _ (List.getElem?_mem hk))
        have := hothers (k + 1) w (by omega) (by simpa using hk)
        have e : i0 + 1 + k = i0 + (k + 1) := by omega
        rw [e, castNode_type_old g v t w hw]
        exact this)
      simp only [insertCasts, if_pos hc, hrest, castNode_output, List.headD_cons,
        List.set_cons_zero]
    | succ p =>
      simp only [List.getElem?_cons_succ] at hp
      have h0 : ¬ (policy.participates i0 = true ∧ (g.type v).scalar ≠ t) := by
        simpa using hothers 0 v (by omega) (by simp)
      have hrest := ih g (i0 + 1) p lo hp (by
          have e : i0 + 1 + p = i0 + (p + 1) := by omega
          rw [e]
          exact hpp) hlo
        (fun k w hk hkw => by
          have := hothers (k + 1) w (by omega) (by simpa using hkw)
          have e : i0 + 1 + k = i0 + (k + 1) := by omega
          rw [e]
          exact this)
        (fun w hw => halloc w (List.mem_cons_of_mem _ hw))
      simp only [insertCasts, if_neg h0, hrest, List.set_cons_succ]

theorem participating_none (policy : ImplicitCast) (g : Graph) (vs : List Nat) :
    ∀ i0 : Nat, (∀ m : Nat, m < vs.length → policy.participates (i0 + m) = false) →
      participating policy g i0 vs = [] := by
  induction vs with
  | nil => intro i0 _; rfl
  | cons v vs ih =>
    intro i0 h
    have h0 : policy.participates i0 = false := by simpa using h 0 (by simp)
    have hrest := ih (i0 + 1) (fun m hm => by
      have := h (m + 1) (by simpa using hm)
      rw [← this]; congr 1; omega)
    simp [participating, h0, hrest]

theorem participating_one (policy : ImplicitCast) (g : Graph) (vs : List Nat) :
    ∀ (i0 k b : Nat), vs[k]? = some b →
      (∀ m : Nat, m < vs.length → (policy.participates (i0 + m) = true ↔ m = k)) →
      participating policy g i0 vs = [(g.type b).scalar] := by
  induction vs with
  | nil => intro i0 k b hk; simp at hk
  | cons v vs ih =>
    intro i0 k b hk h
    cases k with
    | zero =>
      simp only [List.getElem?_cons_zero, Option.some.injEq] at hk
      subst hk
      have h0 : policy.participates i0 = true := by simpa using (h 0 (by simp)).mpr rfl
      have hrest := participating_none policy g vs (i0 + 1) (fun m hm => by
        have hm1 := h (m + 1) (by simpa using hm)
        have hne : ¬ policy.participates (i0 + (m + 1)) = true := fun hp => by
          have := hm1.mp hp
          omega
        have e : i0 + 1 + m = i0 + (m + 1) := by omega
        rw [e]
        simpa using hne)
      simp [participating, h0, hrest]
    | succ k =>
      simp only [List.getElem?_cons_succ] at hk
      have h0 : policy.participates i0 = false := by
        have hne : ¬ policy.participates (i0 + 0) = true := fun hp => by
          have := (h 0 (by simp)).mp hp
          omega
        simpa using hne
      have hrest := ih (i0 + 1) k b hk (fun m hm => by
        have hm1 := h (m + 1) (by simpa using hm)
        have e : i0 + 1 + m = i0 + (m + 1) := by omega
        rw [e]
        constructor
        · intro hp
          have := hm1.mp hp
          omega
        · intro hp
          exact hm1.mpr (by omega))
      simp [participating, h0, hrest]

theorem participating_two (policy : ImplicitCast) (g : Graph) (vs : List Nat) :
    ∀ (i0 k1 k2 a b : Nat), vs[k1]? = some a → vs[k2]? = some b → k1 < k2 →
      (∀ m : Nat, m < vs.length → (policy.participates (i0 + m) = true ↔ m = k1 ∨ m = k2)) →
      participating policy g i0 vs = [(g.type a).scalar, (g.type b).scalar] := by
  induction vs with
  | nil => intro i0 k1 k2 a b hk; simp at hk
  | cons v vs ih =>
    intro i0 k1 k2 a b hk1 hk2 hlt h
    obtain ⟨k2, rfl⟩ : ∃ k, k2 = k + 1 := ⟨k2 - 1, by omega⟩
    simp only [List.getElem?_cons_succ] at hk2
    cases k1 with
    | zero =>
      simp only [List.getElem?_cons_zero, Option.some.injEq] at hk1
      subst hk1
      have h0 : policy.participates i0 = true := by
        simpa using (h 0 (by simp)).mpr (Or.inl rfl)
      have hrest := participating_one policy g vs (i0 + 1) k2 b hk2 (fun m hm => by
        have hm1 := h (m + 1) (by simpa using hm)
        have e : i0 + 1 + m = i0 + (m + 1) := by omega
        rw [e]
        constructor
        · intro hp
          have := hm1.mp hp
          omega
        · intro hp
          exact hm1.mpr (by omega))
      simp [participating, h0, hrest]
    | succ k1 =>
      simp only [List.getElem?_cons_succ] at hk1
      have h0 : policy.participates i0 = false := by
        have hne : ¬ policy.participates (i0 + 0) = true := fun hp => by
          have := (h 0 (by simp)).mp hp
          omega
        simpa using hne
      have hrest := ih (i0 + 1) k1 k2 a b hk1 hk2 (by omega) (fun m hm => by
        have hm1 := h (m + 1) (by simpa using hm)
        have e : i0 + 1 + m = i0 + (m + 1) := by omega
        rw [e]
        constructor
        · intro hp
          have := hm1.mp hp
          omega
        · intro hp
          exact hm1.mpr (by omega))
      simp [participating, h0, hrest]

theorem promotionTarget_two (a b : ScalarType) (h : precision a ≠ precision b) :
    promotionTarget [a, b] = .ok (some (higherOf a b)) := by
  have hne : a ≠ b := fun e => h (by rw [e])
  by_cases hlt : precision a < precision b
  · simp [promotionTarget, higherPrecision, higherOf, hne, hlt, Except.map, bind, Except.bind,
      pure, Except.pure]
  · have hgt : precision b < precision a := by omega
    simp [promotionTarget, higherPrecision, higherOf, hne, hlt, hgt, Except.map, bind,
      Except.bind, pure, Except.pure]

/-- The node builder when the promotion target is `T` and exactly one
participating input, `lo` at position `p`, has another element type: one
cast node, of `lo` to `T`, is inserted, then the new node, whose inputs are
the given ones with the output of the cast at position `p`; nothing else in
the graph changes. -/
theorem createAndInsertNode_cast_at (rules : TypingRules) (graph : Graph) (kind : String)
    (inputs : List Nat) (policy : ImplicitCast) (output_policy : ImplicitCastOutput)
    (num_outputs : Nat) (T : ScalarType) (p lo : Nat)
    (htarget : promotionTarget (participating policy graph 0 inputs) = .ok (some T))
    (hp : inputs[p]? = some lo) (hpp : policy.participates p = true)
    (hlo : (graph.type lo).scalar ≠ T)
    (hothers : ∀ (k v : Nat), k ≠ p → inputs[k]? = some v →
      ¬ (policy.participates k = true ∧ (graph.type v).scalar ≠ T))
    (halloc : ∀ v : Nat, v ∈ inputs → v < graph.nextValue) :
    ∃ g2 : Graph,
      createAndInsertNode rules graph kind inputs policy output_policy num_outputs
        = .ok (g2, graph.nextNode + 1)
      ∧ g2.order = graph.order ++ [graph.nextNode, graph.nextNode + 1]
      ∧ g2.node graph.nextNode
        = ⟨"cast", [lo], [graph.nextValue], [("to", .scalarType T)]⟩
      ∧ (g2.node (graph.nextNode + 1)).kind = kind
      ∧ (g2.node (graph.nextNode + 1)).inputs = inputs.set p graph.nextValue
      ∧ (∀ m : Nat, m ≠ graph.nextNode → m ≠ graph.nextNode + 1 → g2.node m = graph.node m)
      ∧ (g2.type graph.nextValue).scalar = T
      ∧ (∀ u : Nat, u < graph.nextValue → g2.type u = graph.type u) := by
  have hins := insertCasts_one T policy inputs graph 0 p lo hp (by simpa using hpp) hlo
    (fun k v hk hv => by simpa using hothers k v hk hv) halloc
  obtain ⟨ho, hn, hnode⟩ := castNode_eq graph lo T
  have hnv := castNode_nextValue graph lo T
  refine ⟨((castNode graph lo T).1.insertNode kind (inputs.set p graph.nextValue) []
      (outputTypes rules kind
        ((inputs.set p graph.nextValue).map (castNode graph lo T).1.type)
        output_policy num_outputs)).1, ?_, ?_, ?_, ?_, ?_, ?_, ?_, ?_⟩
  · simp only [createAndInsertNode, htarget, hins, bind, Except.bind, pure, Except.pure]
    simp [Graph.insertNode, hn]
  · simp [Graph.insertNode, ho, hn]
  · simp [Graph.insertNode, hn, hnode]
  · simp [Graph.insertNode, hn]
  · simp [Graph.insertNode, hn]
  · intro m h1 h2
    simp [Graph.insertNode, hn, hnode, Function.update_noteq h1, Function.update_noteq h2]
  · rw [Graph.insertNode_type_old _ _ _ _ _ graph.nextValue (by omega)]
    exact castNode_type_new graph lo T
  · intro u hu
    rw [Graph.insertNode_type_old _ _ _ _ _ u (by omega)]
    exact castNode_type_old graph lo T u hu

theorem createAndInsertNode_pair_lower_first (rules : TypingRules) (graph : Graph)
    (kind : String) (inputs : List Nat) (policy : ImplicitCast)
    (output_policy : ImplicitCastOutput) (num_outputs p q lo hv : Nat)
    (T : ScalarType)
    (htarget : promotionTarget (participating policy graph 0 inputs) = .ok (some T))
    (hp : inputs[p]? = some lo) (hq : inputs[q]? = some hv) (hpq : p ≠ q)
    (hpol : ∀ m : Nat, m < inputs.length → (policy.participates m = true ↔ m = p ∨ m = q))
    (halloc : ∀ v : Nat, v ∈ inputs → v < graph.nextValue)
    (hlo : (graph.type lo).scalar ≠ T) (hhv : (graph.type hv).scalar = T) :
    ∃ g2 : Graph,
      createAndInsertNode rules graph kind inputs policy output_policy num_outputs
        = .ok (g2, graph.nextNode + 1)
      ∧ g2.order = graph.order ++ [graph.nextNode, graph.nextNode + 1]
      ∧ g2.node graph.nextNode
        = ⟨"cast", [lo], [graph.nextValue], [("to", .scalarType T)]⟩
      ∧ (g2.node (graph.nextNode + 1)).kind = kind
      ∧ (g2.node (graph.nextNode + 1)).inputs = inputs.set p graph.nextValue
      ∧ (∀ m : Nat, m ≠ graph.nextNode → m ≠ graph.nextNode + 1 → g2.node m = graph.node m)
      ∧ (g2.type graph.nextValue).scalar = T
      ∧ g2.type hv = graph.type hv
      ∧ (g2.node (graph.nextNode + 1)).inputs[p]? = some graph.nextValue
      ∧ (g2.node (graph.nextNode + 1)).inputs[q]? = some hv := by
  have hplt : p < inputs.length := (List.getElem?_eq_some_iff.mp hp).1
  have hqlt : q < inputs.length := (List.getElem?_eq_some_iff.mp hq).1
  obtain ⟨g2, h1, h2, h3, h4, h5, h6, h7, h8⟩ :=
    createAndInsertNode_cast_at rules graph kind inputs policy output_policy num_outputs T p lo
      htarget hp ((hpol p hplt).mpr (Or.inl rfl)) hlo
      (fun k v hk hkv hc => by
        have hklt : k < inputs.length := (List.getElem?_eq_some_iff.mp hkv).1
        rcases (hpol k hklt).mp hc.1 with h | h
        · exact hk h
        · subst h
          rw [hq] at hkv
          cases hkv
          exact hc.2 hhv)
      halloc
  refine ⟨g2, h1, h2, h3, h4, h5, h6, h7, h8 hv (halloc hv (List.getElem?_mem hq)), ?_, ?_⟩
  · rw [h5, List.getElem?_set_self hplt]
  · rw [h5, List.getElem?_set_ne hpq, hq]

/-- C6: for a node built by `createAndInsertNode` under a policy that makes the
inputs at positions `i` and `j` (and no other) take part in promotion, if the
two inputs `a` and `b` have different precisions then exactly one node is
inserted ahead of the new node, a cast of the lower-precision one of `a` and
`b` to the higher precision, and the new node has the given inputs with the
output of that cast in the place of the lower-precision input; so both inputs
reaching the node have one element type, the higher-precision of the two, and
nothing else in the graph changes. For an `add` node on a 32-bit float `x`
and a 16-bit float `h`, in any graph, both inputs of the node are 32-bit
float and exactly one node is inserted before it: a cast whose input is
`h`. -/
theorem createAndInsertNode_promotion_consistent (rules : TypingRules) (graph : Graph)
    (kind : String) (inputs : List Nat) (policy : ImplicitCast)
    (output_policy : ImplicitCastOutput) (num_outputs i j a b : Nat)
    (hi : inputs[i]? = some a) (hj : inputs[j]? = some b) (hij : i < j)
    (hpol : ∀ m : Nat, m < inputs.length → (policy.participates m = true ↔ m = i ∨ m = j))
    (halloc : ∀ v : Nat, v ∈ inputs → v < graph.nextValue)
    (hprec : precision (graph.type a).scalar ≠ precision (graph.type b).scalar) :
    (∃ (g2 : Graph) (a2 b2 : Nat),
      createAndInsertNode rules graph kind inputs policy output_policy num_outputs
        = .ok (g2, graph.nextNode + 1)
      ∧ g2.order = graph.order ++ [graph.nextNode, graph.nextNode + 1]
      ∧ g2.node graph.nextNode
        = ⟨"cast",
            [if precision (graph.type a).scalar < precision (graph.type b).scalar then a else b],
            [graph.nextValue],
            [("to", .scalarType (higherOf (graph.type a).scalar (graph.type b).scalar))]⟩
      ∧ (g2.node (graph.nextNode + 1)).kind = kind
      ∧ (g2.node (graph.nextNode + 1)).inputs
        = inputs.set
            (if precision (graph.type a).scalar < precision (graph.type b).scalar then i else j)
            graph.nextValue
      ∧ (∀ m : Nat, m ≠ graph.nextNode → m ≠ graph.nextNode + 1 → g2.node m = graph.node m)
      ∧ (g2.node (graph.nextNode + 1)).inputs[i]? = some a2
      ∧ (g2.node (graph.nextNode + 1)).inputs[j]? = some b2
      ∧ a2 = (if precision (graph.type a).scalar < precision (graph.type b).scalar
          then graph.nextValue else a)
      ∧ b2 = (if precision (graph.type a).scalar < precision (graph.type b).scalar
          then b else graph.nextValue)
      ∧ (g2.type a2).scalar = higherOf (graph.type a).scalar (graph.type b).scalar
      ∧ (g2.type b2).scalar = higherOf (graph.type a).scalar (graph.type b).scalar
      ∧ (g2.type a2).scalar = (g2.type b2).scalar)
    ∧ (∀ (g : Graph) (x h : Nat), x < g.nextValue → h < g.nextValue →
        (g.type x).scalar = .Float → (g.type h).scalar = .Half →
        ∃ g2 : Graph,
          createAndInsertNode rules g "add" [x, h] sampleAll output_policy 1
            = .ok (g2, g.nextNode + 1)
          ∧ g2.order = g.order ++ [g.nextNode, g.nextNode + 1]
          ∧ g2.node g.nextNode = ⟨"cast", [h], [g.nextValue], [("to", .scalarType .Float)]⟩
          ∧ (g2.node (g.nextNode + 1)).kind = "add"
          ∧ (g2.node (g.nextNode + 1)).inputs = [x, g.nextValue]
          ∧ (g2.type x).scalar = .Float
          ∧ (g2.type g.nextValue).scalar = .Float) := by
  have hpart := participating_two policy graph inputs 0 i j a b hi hj hij
    (fun m hm => by simpa using hpol m hm)
  have htarget := promotionTarget_two _ _ hprec
  rw [← hpart] at htarget
  refine ⟨?_, ?_⟩
  · by_cases hlt : precision (graph.type a).scalar < precision (graph.type b).scalar
    · have hT : higherOf (graph.type a).scalar (graph.type b).scalar = (graph.type b).scalar := by
        simp [higherOf, hlt]
      have hlo : (graph.type a).scalar ≠ higherOf (graph.type a).scalar (graph.type b).scalar := by
        rw [hT]
        intro e
        exact hprec (by rw [e])
      obtain ⟨g2, h1, h2, h3, h4, h5, h6, h7, h8, h9, h10⟩ :=
        createAndInsertNode_pair_lower_first rules graph kind inputs policy output_policy
          num_outputs i j a b _ htarget hi hj (by omega) hpol halloc hlo hT.symm
      refine ⟨g2, graph.nextValue, b, h1, h2, ?_, h4, ?_, h6, h9, h10, ?_, ?_, h7, ?_, ?_⟩
      · rw [h3, if_pos hlt]
      · rw [h5, if_pos hlt]
      · rw [if_pos hlt]
      · rw [if_pos hlt]
      · rw [h8, hT]
      · rw [h7, h8, hT]
    · have hT : higherOf (graph.type a).scalar (graph.type b).scalar = (graph.type a).scalar := by
        simp [higherOf, hlt]
      have hlo : (graph.type b).scalar ≠ higherOf (graph.type a).scalar (graph.type b).scalar := by
        rw [hT]
        intro e
        exact hprec (by rw [e])
      obtain ⟨g2, h1, h2, h3, h4, h5, h6, h7, h8, h9, h10⟩ :=
        createAndInsertNode_pair_lower_first rules graph kind inputs policy output_policy
          num_outputs j i b a _ htarget hj hi (by omega)
          (fun m hm => by rw [hpol m hm]; exact Or.comm) halloc hlo hT.symm
      refine ⟨g2, a, graph.nextValue, h1, h2, ?_, h4, ?_, h6, h10, h9, ?_, ?_, ?_, h7, ?_⟩
      · rw [h3, if_neg hlt]
      · rw [h5, if_neg hlt]
      · rw [if_neg hlt]
      · rw [if_neg hlt]
      · rw [h8, hT]
      · rw [h7, h8, hT]
  · intro g x h hx hh hxf hhf
    have ht : promotionTarget (participating sampleAll g 0 [x, h]) = .ok (some .Float) := by
      simp [participating, sampleAll, hxf, hhf, promotionTarget, higherPrecision, precision,
        Except.map, bind, Except.bind, pure, Except.pure]
    obtain ⟨g2, h1, h2, h3, h4, h5, _, h7, h8⟩ :=
      createAndInsertNode_cast_at rules g "add" [x, h] sampleAll output_policy 1 .Float 1 h
        ht rfl rfl (by rw [hhf]; decide)
        (fun k v hk hkv hc => by
          cases k with
          | zero =>
            simp only [List.getElem?_cons_zero, Option.some.injEq] at hkv
            subst hkv
            exact hc.2 hxf
          | succ k =>
            cases k with
            | zero => exact hk rfl
            | succ k => simp at hkv)
        (fun v hv => by
          simp only [List.mem_cons, List.mem_singleton, List.not_mem_nil, or_false] at hv
          rcases hv with rfl | rfl
          · exact hx
          · exact hh)
    refine ⟨g2, h1, h2, h3, h4, ?_, ?_, h7⟩
    · rw [h5]
      rfl
    · rw [h8 x hx, hxf]

/-- C6, at an `add` node on value `5` (32-bit float) and value `6` (16-bit float)
of a graph with seven values: node `0` is the one node inserted before the
`add`, a cast to 32-bit float of value `6`; the `add` is on value `5` and the
output of the cast, value `7`, both 32-bit float. -/
theorem createAndInsertNode_promotion_consistent_witness :
    ∃ g2 : Graph,
      createAndInsertNode sampleRules sampleGraph7 "add" [5, 6] sampleAll .None 1 = .ok (g2, 1)
      ∧ sampleGraph7.order = [] ∧ g2.order = [0, 1]
      ∧ g2.node 0 = ⟨"cast", [6], [7], [("to", .scalarType .Float)]⟩
      ∧ (sampleGraph7.type 6).scalar = .Half
      ∧ (g2.node 1).kind = "add" ∧ (g2.node 1).inputs = [5, 7]
      ∧ (g2.type 5).scalar = .Float ∧ (g2.type 7).scalar = .Float := by
  obtain ⟨⟨g2, a2, b2, h1, h2, h3, h4, h5, _, _, _, ha, hb, hta, htb, _⟩, _⟩ :=
    createAndInsertNode_promotion_consistent sampleRules sampleGraph7 "add" [5, 6] sampleAll
      .None 1 0 1 5 6 rfl rfl (by decide)
      (by
        intro m hm
        have hm2 : m < 2 := by simpa using hm
        interval_cases m <;> simp [sampleAll])
      (by
        intro v hv
        simp only [List.mem_cons, List.mem_singleton, List.not_mem_nil, or_false] at hv
        rcases hv with rfl | rfl <;> decide)
      (by decide)
  subst ha hb
  exact ⟨g2, h1, rfl, h2, h3, rfl, h4, h5, hta, htb⟩

end poptorch
